import Mathlib

/-!
Shallow embedding of the CropMix Optimizer (`src/app.py`).

The computational core is the function `solve` (app.py lines 41-83): it
builds a two-variable linear program over corn acres `C` and soy acres `S`
with the OR-Tools GLOP solver, adds the land / labor / herbicide /
nitrogen / no-op / efficacy constraints in the order the source adds them,
maximizes `profit_corn*C + profit_soy*S`, and packages the result as a
dictionary with a `status` string plus, on `OPTIMAL`, the allocation, the
objective value and a recomputed utilization table.

Real numbers of the program are embedded as rationals, so every
definition is executable and exact; the source's floating-point literals
(0.90, 0.87, ...) become the corresponding rationals.  The external LP
library (OR-Tools GLOP) is not part of the repository: a solver run is
embedded as an oracle value `SolverRun` (its terminal status and solution
values), and `SolverRun.correct` states the contract of a correct LP
solver - an `OPTIMAL` run returns a feasible, objective-maximizing point.
Claims about solutions are proved relative to that contract.
-/

namespace CropMix

/-- Scenario input fields, exactly the sidebar inputs of app.py
lines 20-39 that `solve` reads (the efficacy coefficients live in the
session state, embedded separately below). -/
structure ScenarioInput where
  total_acres : ℚ
  profit_corn : ℚ
  profit_soy : ℚ
  labor_corn : ℚ
  labor_soy : ℚ
  herb_corn : ℚ
  herb_soy : ℚ
  N_corn : ℚ
  N_soy : ℚ
  labor_cap : ℚ
  herb_cap : ℚ
  N_cap : ℚ
  target : ℚ
  idle_ok : Bool
deriving DecidableEq

/-- Streamlit session state as `solve` sees it: the two optional keys
read at app.py lines 65-66 and 80. -/
structure SessionState where
  eff_corn : Option ℚ
  eff_soy : Option ℚ
deriving DecidableEq

/-- Embeds the lookup at app.py lines 65 and 80, with its
default 0.90. -/
def SessionState.getEffCorn (s : SessionState) : ℚ :=
  s.eff_corn.getD (90/100)

/-- Embeds the lookup at app.py lines 66 and 80, with its
default 0.87. -/
def SessionState.getEffSoy (s : SessionState) : ℚ :=
  s.eff_soy.getD (87/100)

/-- Which `solver.Add` call (app.py lines 54-66) a constraint came from;
a bookkeeping tag, carrying no data of its own. -/
inductive CKind where
  | land
  | labor
  | herbicide
  | nitrogen
  | noop
  | efficacy
deriving DecidableEq

/-- Comparison direction of a constraint as written in the source. -/
inductive Rel where
  | le
  | ge
  | eq
deriving DecidableEq

/-- An affine expression `cC*C + cS*S + konst` in the two decision
variables, the form each side of a `solver.Add` call takes. -/
structure AffExpr where
  cC : ℚ
  cS : ℚ
  konst : ℚ
deriving DecidableEq

def AffExpr.eval (e : AffExpr) (C S : ℚ) : ℚ :=
  e.cC * C + e.cS * S + e.konst

/-- One constraint exactly as one `solver.Add(lhs rel rhs)` call writes
it: both sides kept as the affine expressions of the source text. -/
structure Constraint where
  kind : CKind
  lhs : AffExpr
  rel : Rel
  rhs : AffExpr
deriving DecidableEq

def Constraint.sat (c : Constraint) (C S : ℚ) : Prop :=
  match c.rel with
  | .le => c.lhs.eval C S ≤ c.rhs.eval C S
  | .ge => c.lhs.eval C S ≥ c.rhs.eval C S
  | .eq => c.lhs.eval C S = c.rhs.eval C S

instance (c : Constraint) (C S : ℚ) : Decidable (c.sat C S) := by
  unfold Constraint.sat
  match c.rel with
  | .le => exact inferInstance
  | .ge => exact inferInstance
  | .eq => exact inferInstance

/-- The constraints of the LP in the order the source adds them
(app.py lines 54-66): land (equality unless `idle_ok`), labor,
herbicide, nitrogen, the no-op `(0.0 + 1.0*0)*C >= 0` of line 62, and
the efficacy constraint of lines 65-66 written with `target*(C + S)` on
its right-hand side. -/
def constraintsOf (inp : ScenarioInput) (st : SessionState) : List Constraint :=
  (if inp.idle_ok then
    [⟨.land, ⟨1, 1, 0⟩, .le, ⟨0, 0, inp.total_acres⟩⟩]
   else
    [⟨.land, ⟨1, 1, 0⟩, .eq, ⟨0, 0, inp.total_acres⟩⟩]) ++
  [⟨.labor, ⟨inp.labor_corn, inp.labor_soy, 0⟩, .le, ⟨0, 0, inp.labor_cap⟩⟩,
   ⟨.herbicide, ⟨inp.herb_corn, inp.herb_soy, 0⟩, .le, ⟨0, 0, inp.herb_cap⟩⟩,
   ⟨.nitrogen, ⟨inp.N_corn, inp.N_soy, 0⟩, .le, ⟨0, 0, inp.N_cap⟩⟩,
   ⟨.noop, ⟨(0 + 1 * 0), 0, 0⟩, .ge, ⟨0, 0, 0⟩⟩,
   ⟨.efficacy, ⟨st.getEffCorn, st.getEffSoy, 0⟩, .ge,
     ⟨inp.target, inp.target, 0⟩⟩]

/-- A point satisfying the variable bounds `NumVar(0.0, infinity)` of
app.py lines 47-48 together with every added constraint. -/
def feasiblePoint (inp : ScenarioInput) (st : SessionState) (C S : ℚ) : Prop :=
  0 ≤ C ∧ 0 ≤ S ∧ ∀ c ∈ constraintsOf inp st, c.sat C S

instance (inp : ScenarioInput) (st : SessionState) (C S : ℚ) :
    Decidable (feasiblePoint inp st C S) := by
  unfold feasiblePoint
  exact inferInstance

/-- The terminal statuses `pywraplp.Solver.Solve` can report. -/
inductive RawStatus where
  | optimal
  | feasible
  | infeasible
  | unbounded
  | abnormal
  | modelInvalid
  | notSolved
deriving DecidableEq

/-- One run of the external LP solver: the status `Solve()` returned and
the values `solution_value()` would read back. -/
structure SolverRun where
  status : RawStatus
  Cval : ℚ
  Sval : ℚ
deriving DecidableEq

/-- Contract of a correct LP solver on the formulated problem: when it
reports `optimal`, its point is feasible and maximizes the objective
`profit_corn*C + profit_soy*S` of app.py line 51 over the feasible set. -/
def SolverRun.correct (inp : ScenarioInput) (st : SessionState)
    (r : SolverRun) : Prop :=
  r.status = .optimal →
    feasiblePoint inp st r.Cval r.Sval ∧
    ∀ C S, feasiblePoint inp st C S →
      inp.profit_corn * C + inp.profit_soy * S ≤
        inp.profit_corn * r.Cval + inp.profit_soy * r.Sval

/-- The `used` dictionary built at app.py lines 75-82: exactly six
entries, each recomputed from the solution values and the original
input coefficients. -/
structure Utilization where
  land : ℚ
  labor : ℚ
  herbicide : ℚ
  nitrogen : ℚ
  effLHS : ℚ
  effRHS : ℚ
deriving DecidableEq

def errMsg : String :=
  "Could not create OR-Tools solver."

def infeasMsg : String :=
  "No optimal solution. Try relaxing caps, lowering target, or allowing idle land."

/-- The dictionary `solve` returns: one constructor per distinct
`status` string of app.py lines 45, 70 and 83, carrying the further
entries present in that case. -/
inductive SolveOutcome where
  | error (msg : String)
  | infeasibleOrError (msg : String)
  | optimal (corn soy profit : ℚ) (used : Utilization)
deriving DecidableEq

/-- The `status` entry of the returned dictionary. -/
def SolveOutcome.statusStr : SolveOutcome → String
  | .error _ => "ERROR"
  | .infeasibleOrError _ => "INFEASIBLE_OR_ERROR"
  | .optimal _ _ _ _ => "OPTIMAL"

/-- The function `solve` of app.py lines 41-83.  `solverOpt` embeds the
result of `CreateSolver` followed by `Solve()`: `none` when
`CreateSolver` returned `None` (line 44), otherwise the run the solver
produced.  `Objective().Value()` (line 74) is the objective of line 51
evaluated at the solution values. -/
def solve (inp : ScenarioInput) (st : SessionState)
    (solverOpt : Option SolverRun) : SolveOutcome :=
  match solverOpt with
  | none => .error errMsg
  | some r =>
    if r.status ≠ RawStatus.optimal then
      .infeasibleOrError infeasMsg
    else
      let Cval := r.Cval
      let Sval := r.Sval
      let profit := inp.profit_corn * Cval + inp.profit_soy * Sval
      .optimal Cval Sval profit
        ⟨Cval + Sval,
         inp.labor_corn * Cval + inp.labor_soy * Sval,
         inp.herb_corn * Cval + inp.herb_soy * Sval,
         inp.N_corn * Cval + inp.N_soy * Sval,
         st.getEffCorn * Cval + st.getEffSoy * Sval,
         inp.target * (Cval + Sval)⟩

/-- State-passing form of `solve`: the session state is threaded through
the two reads of app.py lines 65-66 (a `session_state.get`, which
returns the value without writing), making explicit that `solve`
performs no session-state mutation. -/
def solveSt (inp : ScenarioInput) (st : SessionState)
    (solverOpt : Option SolverRun) : SolveOutcome × SessionState :=
  let read1 := (st.getEffCorn, st)
  let read2 := (read1.2.getEffSoy, read1.2)
  (solve inp read2.2 solverOpt, read2.2)

/-- Unfolds `feasiblePoint` to the plain conjunction of the variable
bounds and the five substantive constraints (the no-op of line 62 holds
everywhere and drops out). -/
theorem feasiblePoint_iff (inp : ScenarioInput) (st : SessionState) (C S : ℚ) :
    feasiblePoint inp st C S ↔
      0 ≤ C ∧ 0 ≤ S ∧
      (if inp.idle_ok then C + S ≤ inp.total_acres
        else C + S = inp.total_acres) ∧
      inp.labor_corn * C + inp.labor_soy * S ≤ inp.labor_cap ∧
      inp.herb_corn * C + inp.herb_soy * S ≤ inp.herb_cap ∧
      inp.N_corn * C + inp.N_soy * S ≤ inp.N_cap ∧
      st.getEffCorn * C + st.getEffSoy * S ≥ inp.target * (C + S) := by
  cases h : inp.idle_ok <;>
    simp [feasiblePoint, constraintsOf, h, Constraint.sat, AffExpr.eval,
      mul_add, and_assoc]

/-- Scenario 1 of the design document (the app's default sidebar
values), used as the concrete input of counterexamples. -/
def inp0 : ScenarioInput :=
  ⟨1000, 350, 200, 3/4, 85/100, 30, 20, 10, 20, 2000, 30000, 90000,
   88/100, false⟩

/-- Session state holding the default efficacy coefficients. -/
def st0 : SessionState := ⟨some (90/100), some (87/100)⟩

/-- A deliberately small concrete scenario for witnesses: one acre,
equality land, all resource rates and caps zero, efficacy coefficients 1
with target 0, corn profit 2 and soy profit 1. -/
def inpA : ScenarioInput :=
  ⟨1, 2, 1, 0, 0, 0, 0, 0, 0, 0, 0, 0, 0, false⟩

def stA : SessionState := ⟨some 1, some 1⟩

/-- A solver run reporting the point (1, 0), the optimum of `inpA`. -/
def runA : SolverRun := ⟨.optimal, 1, 0⟩

/-- The run `runA` satisfies the correct-solver contract on `inpA`. -/
theorem runA_correct : SolverRun.correct inpA stA runA := by
  intro _
  constructor
  · rw [feasiblePoint_iff]
    norm_num [inpA, stA, runA, SessionState.getEffCorn, SessionState.getEffSoy]
  · intro C S hCS
    rw [feasiblePoint_iff] at hCS
    obtain ⟨hC, hS, hland, -⟩ := hCS
    simp only [inpA, runA] at hland ⊢
    norm_num at hland ⊢
    linarith

/-- The scenario `inpA` with corn profit raised to 3. -/
def inpA3 : ScenarioInput :=
  ⟨1, 3, 1, 0, 0, 0, 0, 0, 0, 0, 0, 0, 0, false⟩

theorem inpA3_eq : inpA3 = { inpA with profit_corn := 3 } := rfl

/-- The point of `runA` is also optimal once corn profit is raised. -/
theorem runA_correct3 : SolverRun.correct inpA3 stA runA := by
  intro _
  constructor
  · rw [feasiblePoint_iff]
    norm_num [inpA3, stA, runA, SessionState.getEffCorn, SessionState.getEffSoy]
  · intro C S hCS
    rw [feasiblePoint_iff] at hCS
    obtain ⟨hC, hS, hland, -⟩ := hCS
    simp only [inpA3, runA] at hland ⊢
    norm_num at hland ⊢
    linarith

/-- C1 (amended): every outcome's status is one of exactly the three
strings OPTIMAL, INFEASIBLE_OR_ERROR and ERROR; a failed solver
construction is reported as ERROR, but every non-optimal terminal solve
status - provable infeasibility as well as a solver that could not
determine an answer - is reported by the single status
INFEASIBLE_OR_ERROR. -/
theorem status_taxonomy (inp : ScenarioInput) (st : SessionState)
    (so : Option SolverRun) :
    ((solve inp st so).statusStr = "OPTIMAL" ∨
     (solve inp st so).statusStr = "INFEASIBLE_OR_ERROR" ∨
     (solve inp st so).statusStr = "ERROR") ∧
    (so = none → (solve inp st so).statusStr = "ERROR") ∧
    (∀ r, so = some r → r.status ≠ RawStatus.optimal →
      (solve inp st so).statusStr = "INFEASIBLE_OR_ERROR") ∧
    (∀ r, so = some r → r.status = RawStatus.optimal →
      (solve inp st so).statusStr = "OPTIMAL") := by
  cases so with
  | none => simp [solve, SolveOutcome.statusStr]
  | some r =>
    by_cases h : r.status = RawStatus.optimal <;>
      simp [solve, h, SolveOutcome.statusStr]

/-- C1 counterexample: on the default scenario, a run the solver found
infeasible and a run on which the solver could not determine an answer
(status ABNORMAL) receive the same status string, so a single status
value covers both cases. -/
theorem status_merge_cex :
    (solve inp0 st0 (some ⟨RawStatus.infeasible, 0, 0⟩)).statusStr =
        "INFEASIBLE_OR_ERROR" ∧
    (solve inp0 st0 (some ⟨RawStatus.abnormal, 0, 0⟩)).statusStr =
        "INFEASIBLE_OR_ERROR" :=
  ⟨rfl, rfl⟩

/-- C8 (amended): the constraints are constructed in the fixed order
land (first, as equality unless idle land is allowed, in which case an
upper bound), labor, herbicide, nitrogen, the no-op constraint, and
efficacy last. -/
theorem constraint_order (inp : ScenarioInput) (st : SessionState) :
    (constraintsOf inp st).map Constraint.kind =
      [CKind.land, CKind.labor, CKind.herbicide, CKind.nitrogen,
       CKind.noop, CKind.efficacy] ∧
    (constraintsOf inp st).head? =
      some ⟨CKind.land, ⟨1, 1, 0⟩,
        if inp.idle_ok then Rel.le else Rel.eq,
        ⟨0, 0, inp.total_acres⟩⟩ := by
  cases h : inp.idle_ok <;> simp [constraintsOf, h]

/-- C8 counterexample: on the default scenario the constraint order is
not labor, herbicide, nitrogen, efficacy, land - the land constraint
comes first, not last. -/
theorem constraint_order_cex :
    (constraintsOf inp0 st0).map Constraint.kind ≠
      [CKind.labor, CKind.herbicide, CKind.nitrogen, CKind.efficacy,
       CKind.land] := by
  decide

/-- C5 (amended): for all non-negative points the efficacy requirement
is equivalent to the rearranged single-direction form, but the
formulator passes the constraint to the solver as the source writes it,
with target*(C+S) on the right-hand side - a right-hand side with
variable coefficients, not zero; the satisfaction of the passed
constraint agrees with the rearranged form. -/
theorem efficacy_rearrangement (inp : ScenarioInput) (st : SessionState)
    (C S : ℚ) (_hC : 0 ≤ C) (_hS : 0 ≤ S) :
    (st.getEffCorn * C + st.getEffSoy * S ≥ inp.target * (C + S) ↔
      (st.getEffCorn - inp.target) * C + (st.getEffSoy - inp.target) * S ≥ 0) ∧
    (constraintsOf inp st)[5]? =
      some ⟨CKind.efficacy, ⟨st.getEffCorn, st.getEffSoy, 0⟩, Rel.ge,
        ⟨inp.target, inp.target, 0⟩⟩ ∧
    (∀ c, (constraintsOf inp st)[5]? = some c →
      (c.sat C S ↔
        (st.getEffCorn - inp.target) * C +
          (st.getEffSoy - inp.target) * S ≥ 0)) := by
  have key : inp.target * (C + S) = inp.target * C + inp.target * S := by
    ring
  have k2 : (st.getEffCorn - inp.target) * C +
      (st.getEffSoy - inp.target) * S =
      st.getEffCorn * C + st.getEffSoy * S -
        (inp.target * C + inp.target * S) := by
    ring
  have hidx : (constraintsOf inp st)[5]? =
      some ⟨CKind.efficacy, ⟨st.getEffCorn, st.getEffSoy, 0⟩, Rel.ge,
        ⟨inp.target, inp.target, 0⟩⟩ := by
    cases h : inp.idle_ok <;> simp [constraintsOf, h]
  refine ⟨⟨fun h => ?_, fun h => ?_⟩, hidx, ?_⟩
  · linarith
  · linarith
  · intro c hc
    rw [hidx] at hc
    obtain rfl := Option.some.inj hc
    simp only [Constraint.sat, AffExpr.eval]
    constructor <;> intro h <;> linarith

/-- C7: solve is deterministic and side-effect-free - threading the
session state through its reads returns the state unchanged, a second
invocation on the state the first one left behind yields the identical
outcome, and the outcome is the pure function of the inputs. -/
theorem solve_pure (inp : ScenarioInput) (st : SessionState)
    (so : Option SolverRun) :
    (solveSt inp st so).2 = st ∧
    (solveSt inp (solveSt inp st so).2 so).1 = (solveSt inp st so).1 ∧
    (solveSt inp st so).1 = solve inp st so :=
  ⟨rfl, rfl, rfl⟩

/-- C4: on an OPTIMAL outcome the reported profit equals
profit_corn*C + profit_soy*S (the source maximizes directly, so no sign
convention needs undoing), and the utilization table holds exactly its
six entries, each recomputed from the returned allocation and the
original input coefficients. -/
theorem utilization_recomputed (inp : ScenarioInput) (st : SessionState)
    (r : SolverRun) (corn soy profit : ℚ) (used : Utilization)
    (h : solve inp st (some r) = SolveOutcome.optimal corn soy profit used) :
    profit = inp.profit_corn * corn + inp.profit_soy * soy ∧
    used.land = corn + soy ∧
    used.labor = inp.labor_corn * corn + inp.labor_soy * soy ∧
    used.herbicide = inp.herb_corn * corn + inp.herb_soy * soy ∧
    used.nitrogen = inp.N_corn * corn + inp.N_soy * soy ∧
    used.effLHS = st.getEffCorn * corn + st.getEffSoy * soy ∧
    used.effRHS = inp.target * (corn + soy) := by
  by_cases hst : r.status = RawStatus.optimal
  · simp [solve, hst] at h
    obtain ⟨h1, h2, h3, h4⟩ := h
    subst h1
    subst h2
    subst h3
    subst h4
    exact ⟨rfl, rfl, rfl, rfl, rfl, rfl, rfl⟩
  · simp [solve, hst] at h

/-- The utilization table of the optimum of the small scenario. -/
def usedA : Utilization := ⟨1, 0, 0, 0, 1, 0⟩

theorem solveA_eq :
    solve inpA stA (some runA) = SolveOutcome.optimal 1 0 2 usedA := by
  norm_num [solve, inpA, stA, runA, usedA, SessionState.getEffCorn,
    SessionState.getEffSoy]

/-- C4 witness: the theorem applied to the small concrete scenario. -/
theorem utilization_recomputed_w :
    (2 : ℚ) = inpA.profit_corn * 1 + inpA.profit_soy * 0 ∧
    usedA.land = 1 + 0 :=
  ⟨(utilization_recomputed inpA stA runA 1 0 2 usedA solveA_eq).1,
   (utilization_recomputed inpA stA runA 1 0 2 usedA solveA_eq).2.1⟩

/-- C5 counterexample: on the default scenario the efficacy constraint
reaches the solver with the affine form 0.88*C + 0.88*S on its
right-hand side - variable terms on the right, not zero. -/
theorem efficacy_not_rearranged_cex :
    ((constraintsOf inp0 st0)[5]?.map Constraint.rhs =
      some (⟨88/100, 88/100, 0⟩ : AffExpr)) ∧
    (⟨88/100, 88/100, 0⟩ : AffExpr) ≠ (⟨0, 0, 0⟩ : AffExpr) := by
  constructor
  · norm_num [constraintsOf, inp0, st0]
  · simp only [ne_eq, AffExpr.mk.injEq, not_and]
    intro h
    norm_num at h

/-- C5 witness: the theorem applied to the default scenario at the
point (1, 1). -/
theorem efficacy_rearrangement_w :
    (constraintsOf inp0 st0)[5]? =
      some ⟨CKind.efficacy, ⟨st0.getEffCorn, st0.getEffSoy, 0⟩, Rel.ge,
        ⟨inp0.target, inp0.target, 0⟩⟩ :=
  (efficacy_rearrangement inp0 st0 1 1 (by norm_num) (by norm_num)).2.1

/-- The spec's non-negativity invariant on the rate, cap and acreage
fields of a scenario. -/
def ScenarioInput.nonneg (inp : ScenarioInput) : Prop :=
  0 ≤ inp.total_acres ∧ 0 ≤ inp.labor_corn ∧ 0 ≤ inp.labor_soy ∧
  0 ≤ inp.herb_corn ∧ 0 ≤ inp.herb_soy ∧ 0 ≤ inp.N_corn ∧
  0 ≤ inp.N_soy ∧ 0 ≤ inp.labor_cap ∧ 0 ≤ inp.herb_cap ∧ 0 ≤ inp.N_cap

/-- C2: with idle land disallowed, non-negative inputs and a feasible
problem, an OPTIMAL outcome of a correct solver run has an allocation
summing to total_acres - exactly, hence within the 1e-6 tolerance. -/
theorem land_equality (inp : ScenarioInput) (st : SessionState)
    (r : SolverRun) (corn soy profit : ℚ) (used : Utilization)
    (_hnn : inp.nonneg) (hidle : inp.idle_ok = false)
    (_hfeas : ∃ C S, feasiblePoint inp st C S)
    (hc : SolverRun.correct inp st r)
    (h : solve inp st (some r) = SolveOutcome.optimal corn soy profit used) :
    corn + soy = inp.total_acres ∧
    |corn + soy - inp.total_acres| ≤ 1 / 1000000 := by
  by_cases hst : r.status = RawStatus.optimal
  · simp [solve, hst] at h
    obtain ⟨h1, h2, -, -⟩ := h
    obtain ⟨hfp, -⟩ := hc hst
    rw [feasiblePoint_iff] at hfp
    obtain ⟨-, -, hland, -⟩ := hfp
    rw [hidle] at hland
    simp only [Bool.false_eq_true, if_false] at hland
    subst h1
    subst h2
    refine ⟨hland, ?_⟩
    rw [hland, sub_self, abs_zero]
    norm_num
  · simp [solve, hst] at h

/-- C2 witness: the theorem applied to the small concrete scenario. -/
theorem land_equality_w :
    (1 : ℚ) + 0 = inpA.total_acres ∧
    |(1 : ℚ) + 0 - inpA.total_acres| ≤ 1 / 1000000 :=
  land_equality inpA stA runA 1 0 2 usedA
    (by norm_num [ScenarioInput.nonneg, inpA]) rfl
    ⟨1, 0, by
      rw [feasiblePoint_iff]
      norm_num [inpA, stA, SessionState.getEffCorn, SessionState.getEffSoy]⟩
    runA_correct solveA_eq

/-- C3: an OPTIMAL allocation of a correct solver run satisfies each
formulated resource cap and the efficacy requirement within any
non-negative tolerance. -/
theorem caps_respected (inp : ScenarioInput) (st : SessionState)
    (r : SolverRun) (corn soy profit : ℚ) (used : Utilization) (ε : ℚ)
    (hε : 0 ≤ ε) (hc : SolverRun.correct inp st r)
    (h : solve inp st (some r) = SolveOutcome.optimal corn soy profit used) :
    inp.labor_corn * corn + inp.labor_soy * soy ≤ inp.labor_cap + ε ∧
    inp.herb_corn * corn + inp.herb_soy * soy ≤ inp.herb_cap + ε ∧
    inp.N_corn * corn + inp.N_soy * soy ≤ inp.N_cap + ε ∧
    st.getEffCorn * corn + st.getEffSoy * soy ≥
      inp.target * (corn + soy) - ε := by
  by_cases hst : r.status = RawStatus.optimal
  · simp [solve, hst] at h
    obtain ⟨h1, h2, -, -⟩ := h
    subst h1
    subst h2
    obtain ⟨hfp, -⟩ := hc hst
    rw [feasiblePoint_iff] at hfp
    obtain ⟨-, -, -, hlab, hherb, hN, heff⟩ := hfp
    exact ⟨by linarith, by linarith, by linarith, by linarith⟩
  · simp [solve, hst] at h

/-- C3 witness: the labor cap conclusion at the small scenario with
tolerance 0. -/
theorem caps_respected_w :
    inpA.labor_corn * 1 + inpA.labor_soy * 0 ≤ inpA.labor_cap + 0 :=
  (caps_respected inpA stA runA 1 0 2 usedA 0 (le_refl 0)
    runA_correct solveA_eq).1

/-- C9: the allocation, profit and utilization values are present in
the outcome exactly when the status is OPTIMAL, and the allocation of a
correct solver run is non-negative; a non-OPTIMAL outcome carries only
its message. -/
theorem optional_fields (inp : ScenarioInput) (st : SessionState)
    (so : Option SolverRun)
    (hc : ∀ r, so = some r → SolverRun.correct inp st r) :
    ((solve inp st so).statusStr = "OPTIMAL" ↔
      ∃ c s p u, solve inp st so = SolveOutcome.optimal c s p u) ∧
    (∀ c s p u, solve inp st so = SolveOutcome.optimal c s p u →
      0 ≤ c ∧ 0 ≤ s) := by
  cases so with
  | none =>
    constructor
    · simp [solve, SolveOutcome.statusStr]
    · intro c s p u h
      simp [solve] at h
  | some r =>
    by_cases hst : r.status = RawStatus.optimal
    · constructor
      · simp [solve, hst, SolveOutcome.statusStr]
      · intro c s p u h
        simp [solve, hst] at h
        obtain ⟨h1, h2, -, -⟩ := h
        obtain ⟨hfp, -⟩ := hc r rfl hst
        rw [feasiblePoint_iff] at hfp
        subst h1
        subst h2
        exact ⟨hfp.1, hfp.2.1⟩
    · constructor
      · simp [solve, hst, SolveOutcome.statusStr]
      · intro c s p u h
        simp [solve, hst] at h

/-- C9 witness: non-negativity of the allocation at the small
scenario. -/
theorem optional_fields_w : (0 : ℚ) ≤ 1 ∧ (0 : ℚ) ≤ 0 :=
  (optional_fields inpA stA (some runA)
    (fun _ h => (Option.some.inj h) ▸ runA_correct)).2 1 0 2 usedA solveA_eq

/-- The constraint list does not depend on the profit coefficients, so
neither does feasibility. -/
theorem feasiblePoint_profit_irrel (inp : ScenarioInput) (p' : ℚ)
    (st : SessionState) (C S : ℚ) :
    feasiblePoint { inp with profit_corn := p' } st C S ↔
      feasiblePoint inp st C S :=
  Iff.rfl

/-- C6: raising the corn profit while holding every other field fixed
never decreases the profit reported by an OPTIMAL outcome of a correct
solver run. -/
theorem profit_mono (inp : ScenarioInput) (p' : ℚ) (st : SessionState)
    (r r' : SolverRun)
    (hp : inp.profit_corn ≤ p')
    (hc : SolverRun.correct inp st r)
    (hc' : SolverRun.correct { inp with profit_corn := p' } st r')
    (corn soy profit corn' soy' profit' : ℚ) (used used' : Utilization)
    (h1 : solve inp st (some r) = SolveOutcome.optimal corn soy profit used)
    (h2 : solve { inp with profit_corn := p' } st (some r') =
      SolveOutcome.optimal corn' soy' profit' used') :
    profit ≤ profit' := by
  by_cases hst : r.status = RawStatus.optimal
  case neg => simp [solve, hst] at h1
  by_cases hst' : r'.status = RawStatus.optimal
  case neg => simp [solve, hst'] at h2
  simp [solve, hst] at h1
  simp [solve, hst'] at h2
  obtain ⟨-, -, hpr1, -⟩ := h1
  obtain ⟨-, -, hpr2, -⟩ := h2
  obtain ⟨hfp, -⟩ := hc hst
  obtain ⟨hfp', hmax'⟩ := hc' hst'
  have hkey := hmax' r.Cval r.Sval
    ((feasiblePoint_profit_irrel inp p' st r.Cval r.Sval).mpr hfp)
  simp only at hkey hpr2
  have hstep : inp.profit_corn * r.Cval ≤ p' * r.Cval :=
    mul_le_mul_of_nonneg_right hp hfp.1
  linarith

/-- The optimum of the raised-profit version of the small scenario. -/
theorem solveA3_eq :
    solve { inpA with profit_corn := 3 } stA (some runA) =
      SolveOutcome.optimal 1 0 3 usedA := by
  rw [← inpA3_eq]
  norm_num [solve, inpA3, stA, runA, usedA, SessionState.getEffCorn,
    SessionState.getEffSoy]

/-- C6 witness: raising the corn profit of the small scenario from 2
to 3 raises the optimal profit from 2 to 3. -/
theorem profit_mono_w : (2 : ℚ) ≤ 3 :=
  profit_mono inpA 3 stA runA runA (by norm_num [inpA])
    runA_correct (inpA3_eq ▸ runA_correct3) 1 0 2 1 0 3 usedA usedA
    solveA_eq solveA3_eq

/-- The constraint list with the no-op constraint of app.py line 62
removed. -/
def constraintsNoNoop (inp : ScenarioInput) (st : SessionState) :
    List Constraint :=
  (constraintsOf inp st).filter (fun c => c.kind ≠ CKind.noop)

/-- Feasibility for the formulation without the no-op constraint. -/
def feasiblePointNoNoop (inp : ScenarioInput) (st : SessionState)
    (C S : ℚ) : Prop :=
  0 ≤ C ∧ 0 ≤ S ∧ ∀ c ∈ constraintsNoNoop inp st, c.sat C S

/-- v is the optimal objective value of the LP as formulated. -/
def IsOptimalValue (inp : ScenarioInput) (st : SessionState) (v : ℚ) :
    Prop :=
  ∃ C S, feasiblePoint inp st C S ∧
    inp.profit_corn * C + inp.profit_soy * S = v ∧
    ∀ C' S', feasiblePoint inp st C' S' →
      inp.profit_corn * C' + inp.profit_soy * S' ≤ v

/-- v is the optimal objective value of the LP without the no-op. -/
def IsOptimalValueNoNoop (inp : ScenarioInput) (st : SessionState)
    (v : ℚ) : Prop :=
  ∃ C S, feasiblePointNoNoop inp st C S ∧
    inp.profit_corn * C + inp.profit_soy * S = v ∧
    ∀ C' S', feasiblePointNoNoop inp st C' S' →
      inp.profit_corn * C' + inp.profit_soy * S' ≤ v

/-- The correct-solver contract relative to the formulation without the
no-op constraint. -/
def SolverRun.correctNoNoop (inp : ScenarioInput) (st : SessionState)
    (r : SolverRun) : Prop :=
  r.status = .optimal →
    feasiblePointNoNoop inp st r.Cval r.Sval ∧
    ∀ C S, feasiblePointNoNoop inp st C S →
      inp.profit_corn * C + inp.profit_soy * S ≤
        inp.profit_corn * r.Cval + inp.profit_soy * r.Sval

/-- C10: the no-op constraint evaluates to 0 on the left and 0 on the
right at every point, so it is satisfied by every pair; removing it
changes neither the feasible set, nor the optimal value, nor which
solver runs satisfy the correct-solver contract - hence the outcome of
every solve is unchanged. -/
theorem noop_removable (inp : ScenarioInput) (st : SessionState)
    (C S : ℚ) :
    ((constraintsOf inp st)[4]? =
      some ⟨CKind.noop, ⟨0 + 1 * 0, 0, 0⟩, Rel.ge, ⟨0, 0, 0⟩⟩) ∧
    (∀ c, (constraintsOf inp st)[4]? = some c →
      c.lhs.eval C S = 0 ∧ c.rhs.eval C S = 0 ∧ c.sat C S) ∧
    (feasiblePoint inp st C S ↔ feasiblePointNoNoop inp st C S) ∧
    (∀ v, IsOptimalValue inp st v ↔ IsOptimalValueNoNoop inp st v) ∧
    (∀ r, SolverRun.correct inp st r ↔
      SolverRun.correctNoNoop inp st r) := by
  have hfeq : ∀ C' S' : ℚ, feasiblePoint inp st C' S' ↔
      feasiblePointNoNoop inp st C' S' := by
    intro C' S'
    unfold feasiblePoint feasiblePointNoNoop constraintsNoNoop
    cases h : inp.idle_ok <;>
      simp [constraintsOf, h, Constraint.sat, AffExpr.eval]
  have hidx : (constraintsOf inp st)[4]? =
      some ⟨CKind.noop, ⟨0 + 1 * 0, 0, 0⟩, Rel.ge, ⟨0, 0, 0⟩⟩ := by
    cases h : inp.idle_ok <;> simp [constraintsOf, h]
  refine ⟨hidx, ?_, hfeq C S, ?_, ?_⟩
  · intro c hc
    rw [hidx] at hc
    obtain rfl := Option.some.inj hc
    refine ⟨by simp [AffExpr.eval], by simp [AffExpr.eval], ?_⟩
    simp [Constraint.sat, AffExpr.eval]
  · intro v
    constructor
    · rintro ⟨C', S', hf, he, hmax⟩
      exact ⟨C', S', (hfeq C' S').mp hf, he,
        fun C'' S'' hf'' => hmax C'' S'' ((hfeq C'' S'').mpr hf'')⟩
    · rintro ⟨C', S', hf, he, hmax⟩
      exact ⟨C', S', (hfeq C' S').mpr hf, he,
        fun C'' S'' hf'' => hmax C'' S'' ((hfeq C'' S'').mp hf'')⟩
  · intro r
    constructor
    · intro hcor hst
      obtain ⟨hf, hm⟩ := hcor hst
      exact ⟨(hfeq _ _).mp hf,
        fun C' S' hf' => hm C' S' ((hfeq C' S').mpr hf')⟩
    · intro hcor hst
      obtain ⟨hf, hm⟩ := hcor hst
      exact ⟨(hfeq _ _).mpr hf,
        fun C' S' hf' => hm C' S' ((hfeq C' S').mp hf')⟩

end CropMix
